import Mathlib

/-!
Verification of the multi-agent RAG orchestrator core against its design
specification.  The Python source is shallowly embedded: each class method
becomes a Lean function over explicit state, external reasoning calls and
agent invocations become behaviour parameters, and Python exceptions become
the error case of an Except value.

Embedded modules:
  * Day10/conversation_memory.py  (ConversationMemory)
  * Day8/agent_router.py          (AgentRouter.route)
  * Day7/cfo_agent.py, Day8/cro_agent.py (the bounded agent loop)
  * Day9/orchestrator.py          (MultiAgentOrchestrator)
-/

namespace MultiAgentRag

/-- One stored interaction, mirroring the dict built in
`ConversationMemory.add_interaction`: keys timestamp, query, response, agent
(the agent key may be Python None). -/
structure Interaction where
  timestamp : String
  query : String
  response : String
  agent : Option String
  deriving DecidableEq, Repr

/-- The persistent JSON file `memory.json`: a JSON object mapping each
user id to its list of interactions.  A key that is absent maps to none. -/
def MemoryFile : Type := String → Option (List Interaction)

/-- In-memory state of one `ConversationMemory` instance: its user id, the
short-term (session) list, the long-term (history) list, and the current
content of the shared persistence file. -/
structure MemoryState where
  user_id : String
  short_term : List Interaction
  long_term : List Interaction
  file : MemoryFile

namespace ConversationMemory

/-- `_save_memory`: read the whole file, overwrite only the entry keyed by
`user_id` with `long_term`, write everything back. -/
def save_memory (user_id : String) (long_term : List Interaction)
    (file : MemoryFile) : MemoryFile :=
  fun k => if k = user_id then some long_term else file k

/-- `__init__` / `_load_memory`: session starts empty; history is the file
entry for this user id, or empty when the key is absent or the file is
missing or unreadable. -/
def init (user_id : String) (file : MemoryFile) : MemoryState :=
  { user_id := user_id
    short_term := []
    long_term := (file user_id).getD []
    file := file }

/-- `add_interaction`: build one interaction dict, append it to short-term
and to long-term, then flush long-term to disk.  The timestamp
(`datetime.now().isoformat()` in the source) is passed in explicitly. -/
def add_interaction (m : MemoryState) (ts query response : String)
    (agent_used : Option String) : MemoryState :=
  let interaction : Interaction :=
    { timestamp := ts, query := query, response := response, agent := agent_used }
  { m with
      short_term := m.short_term ++ [interaction]
      long_term := m.long_term ++ [interaction]
      file := save_memory m.user_id (m.long_term ++ [interaction]) m.file }

/-- `clear_session`: empty only the session view. -/
def clear_session (m : MemoryState) : MemoryState :=
  { m with short_term := [] }

/-- `clear_all`: empty both views and persist the now-empty history. -/
def clear_all (m : MemoryState) : MemoryState :=
  { m with
      short_term := []
      long_term := []
      file := save_memory m.user_id [] m.file }

/-- Python slice `xs[-n:]` for a nonnegative n.  For n = 0 this is
`xs[0:]`, i.e. the whole list; for n >= 1 it is the last n elements. -/
def pySliceLast {α : Type} (xs : List α) (n : Nat) : List α :=
  if n = 0 then xs else xs.drop (xs.length - n)

/-- `get_recent_history(n)`: `self.short_term[-n:] if len(self.short_term) > 0
else []`. -/
def get_recent_history (m : MemoryState) (n : Nat) : List Interaction :=
  if m.short_term.length > 0 then pySliceLast m.short_term n else []

/-- The public mutating operations of `ConversationMemory`. -/
inductive MemOp where
  | add (ts query response : String) (agent_used : Option String)
  | clearSession
  | clearAll
  deriving Repr

/-- Apply one operation to a memory state. -/
def applyOp (m : MemoryState) : MemOp → MemoryState
  | .add ts q r a => add_interaction m ts q r a
  | .clearSession => clear_session m
  | .clearAll => clear_all m

/-- Run a finite sequence of operations from a given state. -/
def runOps (m : MemoryState) : List MemOp → MemoryState
  | [] => m
  | op :: rest => runOps (applyOp m op) rest

/-- The documented memory invariant: history is at least as long as the
session and ends with exactly the session, in order. -/
def SessionHistoryInvariant (m : MemoryState) : Prop :=
  m.short_term.length ≤ m.long_term.length ∧
  m.long_term.drop (m.long_term.length - m.short_term.length) = m.short_term

lemma applyOp_suffix (m : MemoryState) (op : MemOp)
    (h : m.short_term <:+ m.long_term) :
    (applyOp m op).short_term <:+ (applyOp m op).long_term := by
  obtain ⟨t, ht⟩ := h
  cases op with
  | add ts q r a =>
      exact ⟨t, by simp [applyOp, add_interaction, ← List.append_assoc, ht]⟩
  | clearSession => exact ⟨m.long_term, by simp [applyOp, clear_session]⟩
  | clearAll => exact ⟨[], by simp [applyOp, clear_all]⟩

lemma runOps_suffix (ops : List MemOp) :
    ∀ m : MemoryState, m.short_term <:+ m.long_term →
      (runOps m ops).short_term <:+ (runOps m ops).long_term := by
  induction ops with
  | nil => intro m h; exact h
  | cons op rest ih =>
      intro m h
      exact ih (applyOp m op) (applyOp_suffix m op h)

lemma suffix_invariant (m : MemoryState)
    (h : m.short_term <:+ m.long_term) : SessionHistoryInvariant m := by
  obtain ⟨t, ht⟩ := h
  constructor
  · rw [← ht]; simp
  · rw [← ht]
    have hlen : t.length + m.short_term.length - m.short_term.length
        = t.length := by omega
    simp [hlen]

end ConversationMemory

end MultiAgentRag

namespace MultiAgentRag

open ConversationMemory

/-- Claim C6: for every ConversationMemory and every finite sequence of
add_interaction, clear_session and clear_all calls starting from
construction, afterwards the long-term history is at least as long as the
short-term session and the last len(session) entries of history equal the
session in order; moreover add_interaction appends the same interaction to
both views in one operation. -/
theorem memory_session_history_invariant
    (user_id : String) (file : MemoryFile) (ops : List MemOp) :
    SessionHistoryInvariant (runOps (ConversationMemory.init user_id file) ops) ∧
    (∀ (m : MemoryState) (ts q r : String) (a : Option String),
      (add_interaction m ts q r a).short_term
          = m.short_term ++ [⟨ts, q, r, a⟩] ∧
      (add_interaction m ts q r a).long_term
          = m.long_term ++ [⟨ts, q, r, a⟩]) := by
  constructor
  · apply suffix_invariant
    apply runOps_suffix
    exact ⟨(ConversationMemory.init user_id file).long_term, by simp [ConversationMemory.init]⟩
  · intro m ts q r a
    exact ⟨by simp [add_interaction], by simp [add_interaction]⟩

/-- A file in which no user has any stored history. -/
def emptyFile : MemoryFile := fun _ => none

/-- A memory state holding exactly one session interaction, used to witness
the behaviour of the Python slice `self.short_term[-n:]` at n = 0. -/
def memOneInteraction : MemoryState :=
  add_interaction (ConversationMemory.init "u" emptyFile) "t0" "q0" "r0" (some "CFO")

/-- Claim C8, counterexample: get_recent_history(0) on a session holding one
interaction returns that interaction (the whole session), not the empty
sequence, because `xs[-0:]` is the full list in Python; so the claimed
bound "at most n entries for every n >= 0" fails at n = 0. -/
theorem get_recent_history_zero_counterexample :
    (get_recent_history memOneInteraction 0).length = 1 ∧
    ¬ (get_recent_history memOneInteraction 0).length ≤ 0 := by
  constructor <;> decide

/-- Claim C8, amended: for every n >= 1, get_recent_history(n) returns the
last n session entries oldest-first (the whole session when it holds fewer
than n), hence at most n entries, and the empty sequence when no
interactions exist.  (At n = 0 the source instead returns the entire
session, see the counterexample.) -/
theorem get_recent_history_last_n (m : MemoryState) (n : Nat) (h : 1 ≤ n) :
    get_recent_history m n = m.short_term.drop (m.short_term.length - n) ∧
    (get_recent_history m n).length ≤ n ∧
    (m.short_term = [] → get_recent_history m n = []) := by
  have hn : n ≠ 0 := by omega
  by_cases hlen : m.short_term.length > 0
  · have heq : get_recent_history m n
        = m.short_term.drop (m.short_term.length - n) := by
      simp [get_recent_history, hlen, pySliceLast, hn]
    refine ⟨heq, ?_, ?_⟩
    · rw [heq, List.length_drop]
      omega
    · intro hempty
      simp [hempty] at hlen
  · have hempty : m.short_term = [] := by
      cases hxs : m.short_term with
      | nil => rfl
      | cons x xs => rw [hxs] at hlen; simp at hlen
    refine ⟨?_, ?_, ?_⟩
    · simp [get_recent_history, hempty]
    · simp [get_recent_history, hempty]
    · intro _; simp [get_recent_history, hempty]

/-- Witness for the amended C8 theorem at a concrete state and n = 1. -/
theorem get_recent_history_last_n_witness :
    (1 : Nat) ≤ 1 ∧
    get_recent_history memOneInteraction 1
        = memOneInteraction.short_term.drop
            (memOneInteraction.short_term.length - 1) :=
  ⟨by decide, (get_recent_history_last_n memOneInteraction 1 (by decide)).1⟩

/-- Claim C10: for every identity k other than the memory's own user id,
add_interaction and clear_all leave the file entry for k unchanged: the
save rewrites only the entry keyed by the memory's own user id. -/
theorem save_preserves_other_identities
    (m : MemoryState) (ts q r : String) (a : Option String) (k : String)
    (h : k ≠ m.user_id) :
    (add_interaction m ts q r a).file k = m.file k ∧
    (clear_all m).file k = m.file k := by
  constructor
  · simp [add_interaction, save_memory, h]
  · simp [clear_all, save_memory, h]

/-- Witness for C10 at a concrete memory state and foreign identity. -/
theorem save_preserves_other_identities_witness :
    "other" ≠ memOneInteraction.user_id ∧
    (add_interaction memOneInteraction "t1" "q1" "r1" none).file "other"
        = memOneInteraction.file "other" :=
  ⟨by decide,
   (save_preserves_other_identities memOneInteraction "t1" "q1" "r1" none
      "other" (by decide)).1⟩

/-- The closed set of routing outcomes of `AgentRouter.route`. -/
inductive Domain where
  | cfo
  | cro
  | general
  deriving DecidableEq, Repr

/-- Python's str.strip(): drop whitespace from both ends. -/
def pyStrip (s : String) : String :=
  String.mk
    (((s.toList.dropWhile Char.isWhitespace).reverse.dropWhile
        Char.isWhitespace).reverse)

/-- Python's str.upper() on ASCII text: upper-case every character. -/
def pyUpper (s : String) : String :=
  String.mk (s.toList.map Char.toUpper)

namespace AgentRouter

/-- `AgentRouter.route`: the classifier call's behaviour is an Except value
(.error models the chat completion call raising).  The call is not wrapped
in any try/except, so a raising call propagates; a returned reply is
stripped, upper-cased and matched against CFO and CRO, anything else
falling back to general. -/
def route (classifierReply : Except String String) : Except String Domain :=
  match classifierReply with
  | .error e => .error e
  | .ok content =>
      let category := pyUpper (pyStrip content)
      if category = "CFO" then .ok .cfo
      else if category = "CRO" then .ok .cro
      else .ok .general

end AgentRouter

/-- Claim C9, counterexample: a classifier call that raises is not mapped to
general; route has no try/except, so the error propagates to the caller. -/
theorem route_error_propagates_counterexample :
    AgentRouter.route (.error "APIConnectionError")
        = Except.error "APIConnectionError" ∧
    AgentRouter.route (.error "APIConnectionError")
        ≠ Except.ok Domain.general := by
  refine ⟨rfl, ?_⟩
  intro h
  exact Except.noConfusion h

/-- Claim C9, amended: for every classifier reply string, route returns a tag
from the closed set (cfo, cro, general); any reply other than the recognized
tags (after strip and upper-casing) maps to general; but a classifier call
that raises propagates its exception instead of yielding general. -/
theorem route_closed_set (s : String)
    (h1 : pyUpper (pyStrip s) ≠ "CFO") (h2 : pyUpper (pyStrip s) ≠ "CRO") :
    AgentRouter.route (.ok s) = Except.ok Domain.general ∧
    (∀ s2 : String, ∃ t : Domain, AgentRouter.route (.ok s2) = Except.ok t) ∧
    (∀ e : String, AgentRouter.route (.error e) = Except.error e) := by
  refine ⟨?_, ?_, ?_⟩
  · simp [AgentRouter.route, h1, h2]
  · intro s2
    by_cases hc : pyUpper (pyStrip s2) = "CFO"
    · exact ⟨.cfo, by simp [AgentRouter.route, hc]⟩
    · by_cases hr : pyUpper (pyStrip s2) = "CRO"
      · exact ⟨.cro, by simp [AgentRouter.route, hc, hr]⟩
      · exact ⟨.general, by simp [AgentRouter.route, hc, hr]⟩
  · intro e; rfl

/-- Witness for the amended C9 theorem at an unrecognized classifier reply. -/
theorem route_closed_set_witness :
    (pyUpper (pyStrip "banana") ≠ "CFO") ∧ (pyUpper (pyStrip "banana") ≠ "CRO") ∧
    AgentRouter.route (.ok "banana") = Except.ok Domain.general :=
  ⟨by decide, by decide, (route_closed_set "banana" (by decide) (by decide)).1⟩

/-- One entry of an agent's execution trace: the tool name, its parsed
arguments, and the structured result (rendered via json.dumps). -/
structure ToolCallRecord where
  tool : String
  args : List (String × String)
  result : String
  deriving DecidableEq, Repr

/-- The reply of one reasoning step inside an agent loop: the message
content (possibly Python None) and the requested tool calls.  Python's
`if not assistant_message.tool_calls` makes both None and the empty list
the final-answer case, so a single list suffices. -/
structure StepReply where
  content : Option String
  tool_calls : List (String × List (String × String))

/-- An agent result dict.  Keys that a given code path does not set are
modelled as none (for `iterations`) or the empty list (for `trace`);
`answer := none` doubles for an absent key and a Python None content, which
the orchestrator code never distinguishes on the paths it reads. -/
structure AgentResult where
  success : Bool
  answer : Option String := none
  error : Option String := none
  iterations : Option Nat := none
  trace : List ToolCallRecord := []
  deriving DecidableEq, Repr

/-- A capability-provider registry: TOOL_REGISTRY in Day7/tools.py,
`self.tool_registry` in the CRO agent.  none means the name is unknown. -/
def Registry : Type := String → Option (List (String × String) → String)

/-- The keys of TOOL_REGISTRY in Day7/tools.py, used by the CFO agent. -/
def TOOL_REGISTRY_keys : List String :=
  ["query_revenue", "query_expenses", "calculate_profit_margin",
   "forecast_revenue", "get_campaign_performance"]

/-- The keys of the CRO agent's tool_registry. -/
def cro_tool_registry_keys : List String :=
  ["get_campaign_performance", "compare_channels",
   "calculate_customer_acquisition_cost"]

/-- Build a registry from its key set and an opaque provider giving each
operation's implementation. -/
def mkRegistry (keys : List String)
    (provider : String → List (String × String) → String) : Registry :=
  fun name => if name ∈ keys then some (provider name) else none

/-- The inner tool-execution loop of one iteration: known operations run
and are appended to the trace in request order; unknown operations are
skipped (logged, not fatal). -/
def runToolCalls (reg : Registry) :
    List (String × List (String × String)) → List ToolCallRecord →
      List ToolCallRecord
  | [], trace => trace
  | (name, args) :: rest, trace =>
      match reg name with
      | some f => runToolCalls reg rest (trace ++ [⟨name, args, f args⟩])
      | none => runToolCalls reg rest trace

/-- The bounded ReAct loop shared verbatim by CFOAgent.execute and
CROAgent.execute: `for iteration in range(max_iterations)` with the
remaining iteration count as fuel.  behavior gives the reasoning call's
reply at each iteration; when its tool_calls are empty the loop returns the
success dict, and when the fuel runs out it returns the
"Max iterations reached" failure dict. -/
def agentLoopAux (reg : Registry) (behavior : Nat → StepReply)
    (max_iterations : Nat) :
    Nat → Nat → List ToolCallRecord → AgentResult
  | _iter, 0, trace =>
      { success := false, error := some "Max iterations reached",
        iterations := some max_iterations, trace := trace }
  | iter, fuel + 1, trace =>
      if (behavior iter).tool_calls = [] then
        { success := true, answer := (behavior iter).content,
          iterations := some (iter + 1), trace := trace }
      else
        agentLoopAux reg behavior max_iterations (iter + 1) fuel
          (runToolCalls reg (behavior iter).tool_calls trace)

/-- Run an agent's execute loop from iteration 0 with full fuel. -/
def agentExecute (reg : Registry) (behavior : Nat → StepReply)
    (max_iterations : Nat) : AgentResult :=
  agentLoopAux reg behavior max_iterations 0 max_iterations []

namespace CFOAgent

/-- `CFOAgent.execute(task, max_iterations=5)`: the loop over the Day7
TOOL_REGISTRY; behavior stands for the reasoning call's replies for the
given task. -/
def execute (provider : String → List (String × String) → String)
    (behavior : Nat → StepReply) (max_iterations : Nat := 5) : AgentResult :=
  agentExecute (mkRegistry TOOL_REGISTRY_keys provider) behavior
    max_iterations

end CFOAgent

namespace CROAgent

/-- `CROAgent.execute(task, max_iterations=5)`: the identical loop over the
CRO tool registry. -/
def execute (provider : String → List (String × String) → String)
    (behavior : Nat → StepReply) (max_iterations : Nat := 5) : AgentResult :=
  agentExecute (mkRegistry cro_tool_registry_keys provider) behavior
    max_iterations

end CROAgent

lemma agentLoopAux_exhausts (reg : Registry) (behavior : Nat → StepReply)
    (max_iterations : Nat)
    (hnofinal : ∀ i, (behavior i).tool_calls ≠ []) :
    ∀ (fuel iter : Nat) (trace : List ToolCallRecord),
      ∃ t, agentLoopAux reg behavior max_iterations iter fuel trace =
        { success := false, answer := none,
          error := some "Max iterations reached",
          iterations := some max_iterations, trace := t } := by
  intro fuel
  induction fuel with
  | zero => intro iter trace; exact ⟨trace, rfl⟩
  | succ n ih =>
      intro iter trace
      rw [agentLoopAux, if_neg (hnofinal iter)]
      exact ih (iter + 1) (runToolCalls reg (behavior iter).tool_calls trace)

/-- Claim C7, amended: for every task and every reasoning behaviour that on
each iteration requests only known operations and never produces a final
answer, CFOAgent.execute and CROAgent.execute terminate after exactly
max_iterations reasoning steps and return an AgentResult with success false
and error "Max iterations reached" (the source's literal, not
"iteration limit"), without looping beyond the cap; exceptions do not arise
(the loop is a total function of the behaviour). -/
theorem agent_iteration_exhaustion
    (provider : String → List (String × String) → String)
    (behavior : Nat → StepReply) (max_iterations : Nat)
    (hnofinal : ∀ i, (behavior i).tool_calls ≠ [])
    (_hknown : ∀ i c, c ∈ (behavior i).tool_calls →
      c.1 ∈ TOOL_REGISTRY_keys ∧ c.1 ∈ cro_tool_registry_keys) :
    ((CFOAgent.execute provider behavior max_iterations).success = false ∧
     (CFOAgent.execute provider behavior max_iterations).error
        = some "Max iterations reached" ∧
     (CFOAgent.execute provider behavior max_iterations).iterations
        = some max_iterations) ∧
    ((CROAgent.execute provider behavior max_iterations).success = false ∧
     (CROAgent.execute provider behavior max_iterations).error
        = some "Max iterations reached" ∧
     (CROAgent.execute provider behavior max_iterations).iterations
        = some max_iterations) := by
  obtain ⟨t1, h1⟩ := agentLoopAux_exhausts
    (mkRegistry TOOL_REGISTRY_keys provider) behavior max_iterations
    hnofinal max_iterations 0 []
  obtain ⟨t2, h2⟩ := agentLoopAux_exhausts
    (mkRegistry cro_tool_registry_keys provider) behavior max_iterations
    hnofinal max_iterations 0 []
  constructor
  · rw [CFOAgent.execute, agentExecute, h1]
    exact ⟨rfl, rfl, rfl⟩
  · rw [CROAgent.execute, agentExecute, h2]
    exact ⟨rfl, rfl, rfl⟩

/-- A provider whose operations all answer with the same string. -/
def constProvider : String → List (String × String) → String :=
  fun _ _ => "not found"

/-- A reasoning behaviour that always requests one operation known to both
agents and never returns a final answer. -/
def alwaysToolBehavior : Nat → StepReply :=
  fun _ => { content := none, tool_calls := [("get_campaign_performance", [])] }

/-- Claim C7, counterexample: under a behaviour that never produces a final
answer, the exhausted agent's error string is "Max iterations reached", not
the claimed "iteration limit". -/
theorem agent_error_string_counterexample :
    (CFOAgent.execute constProvider alwaysToolBehavior 5).success = false ∧
    (CFOAgent.execute constProvider alwaysToolBehavior 5).error
        = some "Max iterations reached" ∧
    (CFOAgent.execute constProvider alwaysToolBehavior 5).error
        ≠ some "iteration limit" ∧
    (∀ i, (alwaysToolBehavior i).tool_calls ≠ []) := by
  refine ⟨by decide, by decide, by decide, ?_⟩
  intro i
  simp [alwaysToolBehavior]

/-- Witness for the amended C7 theorem at a concrete behaviour. -/
theorem agent_iteration_exhaustion_witness :
    (∀ i, (alwaysToolBehavior i).tool_calls ≠ []) ∧
    (CFOAgent.execute constProvider alwaysToolBehavior 5).iterations
        = some 5 ∧
    (CROAgent.execute constProvider alwaysToolBehavior 5).error
        = some "Max iterations reached" := by
  have hnofinal : ∀ i, (alwaysToolBehavior i).tool_calls ≠ [] := by
    intro i; simp [alwaysToolBehavior]
  have hknown : ∀ i c, c ∈ (alwaysToolBehavior i).tool_calls →
      c.1 ∈ TOOL_REGISTRY_keys ∧ c.1 ∈ cro_tool_registry_keys := by
    intro i c hc
    simp [alwaysToolBehavior] at hc
    subst hc
    exact ⟨by decide, by decide⟩
  have h := agent_iteration_exhaustion constProvider alwaysToolBehavior 5
    hnofinal hknown
  exact ⟨hnofinal, h.1.2.2, h.2.2.1⟩

/-- The decomposition dict obtained from json.loads: each key the
orchestrator later reads may be absent.  A truthiness-relevant value is
modelled as Bool. -/
structure RawDecomp where
  needs_multiple_agents : Option Bool
  agents_needed : Option (List String)
  subtasks : Option (List (String × String))
  deriving DecidableEq, Repr

/-- Behaviour of the decomposition reasoning call as the orchestrator
observes it: the chat completion call raises, or its content fails
json.loads, or it parses to a dict. -/
inductive DecompOutcome where
  | raises (msg : String)
  | unparseable
  | parsed (d : RawDecomp)

/-- Python subscript `d[key]` on an optional field: KeyError when absent. -/
def getItem {α : Type} (o : Option α) (key : String) : Except String α :=
  match o with
  | some v => .ok v
  | none => .error ("KeyError: " ++ key)

/-- Dict lookup over an association list with unique keys. -/
def lookupResult : List (String × AgentResult) → String → Option AgentResult
  | [], _ => none
  | (k, v) :: rest, name => if name = k then some v else lookupResult rest name

/-- The result dict of `MultiAgentOrchestrator.execute`. -/
structure OrchestrationResult where
  success : Bool
  answer : Option String
  agents_used : List String
  agent_results : List (String × AgentResult)
  needs_coordination : Bool
  deriving DecidableEq, Repr

namespace MultiAgentOrchestrator

/-- The keys of `self.agents` in the orchestrator. -/
def agents_keys : List String := ["cfo", "cro"]

/-- `decompose_task`: the reasoning call itself sits outside the
try/except, so its exception propagates; only a json.loads failure is
caught and replaced by the hardcoded single-CFO fallback plan; parsed
output is returned as-is, whatever agents it names. -/
def decompose_task (task : String) (outcome : DecompOutcome) :
    Except String RawDecomp :=
  match outcome with
  | .raises msg => .error msg
  | .unparseable =>
      .ok { needs_multiple_agents := some false,
            agents_needed := some ["cfo"],
            subtasks := some [("cfo", task)] }
  | .parsed d => .ok d

/-- How each agent behaves when the orchestrator invokes it on a subtask:
either it returns a result dict or it raises with a message. -/
def AgentBehavior : Type := String → String → Except String AgentResult

/-- The try/except around one agent invocation in `execute_parallel`: a
raised exception becomes a success-false result carrying the message. -/
def wrapResult : Except String AgentResult → AgentResult
  | .ok r => r
  | .error e =>
      { success := false, error := some e, answer := some ("Error: " ++ e) }

/-- `execute_parallel`: iterate the subtask dict in order; names not in
`self.agents` are skipped silently; each known agent runs inside its own
try/except, so one agent's exception never stops the loop. -/
def execute_parallel (behavior : AgentBehavior) :
    List (String × String) → List (String × AgentResult)
  | [] => []
  | (name, sub) :: rest =>
      if name ∈ agents_keys then
        (name, wrapResult (behavior name sub)) :: execute_parallel behavior rest
      else execute_parallel behavior rest

/-- One step of the synthesis context fold: a successful agent contributes
its labeled answer, a failed one contributes an "Error occurred" note. -/
def buildStep (ctx : String) (p : String × AgentResult) : String :=
  if p.2.success then
    ctx ++ "\n" ++ pyUpper p.1 ++ " Agent Response:\n"
      ++ p.2.answer.getD "No answer provided" ++ "\n"
  else
    ctx ++ "\n" ++ pyUpper p.1 ++ " Agent: Error occurred\n"

/-- The context string `synthesize_results` builds from the agent dicts. -/
def buildContext (results : List (String × AgentResult)) : String :=
  results.foldl buildStep ""

/-- The error-note-only fold step, for the all-agents-failed case. -/
def errStep (ctx : String) (p : String × AgentResult) : String :=
  ctx ++ "\n" ++ pyUpper p.1 ++ " Agent: Error occurred\n"

/-- Context consisting solely of per-agent error notes. -/
def errorOnlyContext (results : List (String × AgentResult)) : String :=
  results.foldl errStep ""

/-- The user message handed to the synthesis reasoning call. -/
def synthPrompt (task context : String) : String :=
  "Original question: " ++ task ++ "\n\nAgent responses:\n" ++ context
    ++ "\n\nProvide synthesized answer:"

/-- `synthesize_results`: builds the context and unconditionally invokes
the reasoning call once; the first component counts the external reasoning
calls made, the second is the call's outcome (.error when it raises —
there is no try/except here either). -/
def synthesize_results (task : String) (results : List (String × AgentResult))
    (synth : String → Except String String) : Nat × Except String String :=
  (1, synth (synthPrompt task (buildContext results)))

/-- The single-agent final-answer branch of `execute`: take the first
needed agent; if its entry exists and has truthy success, return its
answer value; otherwise the fixed failure string.  An empty agents_needed
list raises IndexError. -/
def single_agent_answer (results : List (String × AgentResult)) :
    List String → Except String (Option String)
  | [] => .error "IndexError: list index out of range"
  | a :: _ =>
      match lookupResult results a with
      | some r =>
          if r.success then .ok r.answer
          else .ok (some "Error: Could not complete task")
      | none => .ok (some "Error: Could not complete task")

/-- `MultiAgentOrchestrator.execute`: decompose (its reasoning call may
raise), subscript the expected keys (KeyError when absent), run all
subtasks, then synthesize (multi-agent) or take the single agent's answer.
The returned dict always carries success true, the answer, the agents
used, the per-agent results and the coordination flag. -/
def execute (task : String) (dec : DecompOutcome) (behavior : AgentBehavior)
    (synth : String → Except String String) :
    Except String OrchestrationResult :=
  match decompose_task task dec with
  | .error e => .error e
  | .ok d =>
      match getItem d.agents_needed "agents_needed" with
      | .error e => .error e
      | .ok agents_needed =>
          match getItem d.needs_multiple_agents "needs_multiple_agents" with
          | .error e => .error e
          | .ok needs_multiple =>
              match getItem d.subtasks "subtasks" with
              | .error e => .error e
              | .ok subtasks =>
                  match
                    match needs_multiple with
                    | true =>
                        ((synthesize_results task
                            (execute_parallel behavior subtasks) synth).2).map
                          some
                    | false =>
                        single_agent_answer
                          (execute_parallel behavior subtasks) agents_needed
                  with
                  | .error e => .error e
                  | .ok ans =>
                      .ok { success := true, answer := ans,
                            agents_used := agents_needed,
                            agent_results :=
                              execute_parallel behavior subtasks,
                            needs_coordination := needs_multiple }

end MultiAgentOrchestrator

open MultiAgentOrchestrator

lemma execute_parallel_lookup (behavior : AgentBehavior) :
    ∀ (st : List (String × String)), (st.map Prod.fst).Nodup →
      ∀ name sub, (name, sub) ∈ st → name ∈ agents_keys →
        lookupResult (execute_parallel behavior st) name
            = some (wrapResult (behavior name sub)) := by
  intro st
  induction st with
  | nil =>
      intro _ name sub hmem _
      exact absurd hmem (List.not_mem_nil _)
  | cons hd rest ih =>
      intro hnd name sub hmem hk
      obtain ⟨n0, s0⟩ := hd
      rw [List.map_cons, List.nodup_cons] at hnd
      rcases List.mem_cons.mp hmem with heq | hmem2
      · cases heq
        simp [execute_parallel, if_pos hk, lookupResult]
      · have hnn : name ≠ n0 := by
          intro h
          subst h
          exact hnd.1 (List.mem_map.mpr ⟨(name, sub), hmem2, rfl⟩)
        by_cases hk0 : n0 ∈ agents_keys
        · simp only [execute_parallel, if_pos hk0, lookupResult, if_neg hnn]
          exact ih hnd.2 name sub hmem2 hk
        · simp only [execute_parallel, if_neg hk0]
          exact ih hnd.2 name sub hmem2 hk

/-- Claim C2: in execute_parallel, an agent whose execute raises is recorded
as a success-false result carrying the exception message, and every other
named known agent still runs to completion: each named known agent's entry
is exactly the wrapped outcome of its own invocation, independent of the
faulting sibling. -/
theorem execute_parallel_isolates_failures
    (behavior : AgentBehavior) (st : List (String × String))
    (name sub msg : String)
    (hnd : (st.map Prod.fst).Nodup)
    (hmem : (name, sub) ∈ st) (hk : name ∈ agents_keys)
    (hraise : behavior name sub = Except.error msg) :
    lookupResult (execute_parallel behavior st) name
        = some { success := false, answer := some ("Error: " ++ msg),
                 error := some msg } ∧
    (∀ p ∈ st, p.1 ∈ agents_keys →
      lookupResult (execute_parallel behavior st) p.1
          = some (wrapResult (behavior p.1 p.2))) := by
  constructor
  · rw [execute_parallel_lookup behavior st hnd name sub hmem hk, hraise]
    rfl
  · intro p hp hkp
    obtain ⟨pn, ps⟩ := p
    exact execute_parallel_lookup behavior st hnd pn ps hp hkp

/-- A subtask mapping naming both agents. -/
def twoAgentSubtasks : List (String × String) :=
  [("cfo", "What was Q4 revenue?"), ("cro", "How did campaigns perform?")]

/-- An agent behaviour in which the cfo agent raises and the cro agent
completes normally. -/
def cfoRaisesBehavior : AgentBehavior :=
  fun name _sub =>
    if name = "cfo" then Except.error "boom"
    else Except.ok { success := true, answer := some "campaign summary" }

/-- Witness for C2 at a concrete two-agent subtask mapping. -/
theorem execute_parallel_isolates_failures_witness :
    (twoAgentSubtasks.map Prod.fst).Nodup ∧
    ("cfo", "What was Q4 revenue?") ∈ twoAgentSubtasks ∧
    "cfo" ∈ agents_keys ∧
    cfoRaisesBehavior "cfo" "What was Q4 revenue?" = Except.error "boom" ∧
    lookupResult (execute_parallel cfoRaisesBehavior twoAgentSubtasks) "cfo"
        = some { success := false, answer := some ("Error: " ++ "boom"),
                 error := some "boom" } :=
  ⟨by decide, by decide, by decide, rfl,
   (execute_parallel_isolates_failures cfoRaisesBehavior twoAgentSubtasks
      "cfo" "What was Q4 revenue?" "boom" (by decide) (by decide) (by decide)
      rfl).1⟩

lemma buildContext_eq_errorOnly :
    ∀ (results : List (String × AgentResult)) (acc : String),
      (∀ p ∈ results, p.2.success = false) →
      results.foldl buildStep acc = results.foldl errStep acc := by
  intro results
  induction results with
  | nil => intro acc _; rfl
  | cons p rest ih =>
      intro acc h
      simp only [List.foldl_cons]
      have hp : p.2.success = false := h p (List.mem_cons_self p rest)
      have hstep : buildStep acc p = errStep acc p := by
        simp [buildStep, errStep, hp]
      rw [hstep]
      exact ih (errStep acc p) (fun q hq => h q (List.mem_cons_of_mem p hq))

/-- Two agent results in which every agent failed. -/
def allFailedResults : List (String × AgentResult) :=
  [("cfo", { success := false, error := some "Max iterations reached" }),
   ("cro", { success := false, error := some "boom",
             answer := some "Error: boom" })]

/-- Claim C3, counterexample: with every agent failed, synthesize_results
still makes one external reasoning call (not zero) and returns that call's
reply, which varies with the call — not a fixed failure message. -/
theorem synthesize_no_skip_counterexample :
    (∀ p ∈ allFailedResults, p.2.success = false) ∧
    (synthesize_results "q" allFailedResults
        (fun _ => Except.ok "llm reply")).1 = 1 ∧
    (synthesize_results "q" allFailedResults
        (fun _ => Except.ok "llm reply")).2 = Except.ok "llm reply" ∧
    (synthesize_results "q" allFailedResults
        (fun _ => Except.ok "another reply")).2 = Except.ok "another reply" := by
  refine ⟨?_, rfl, rfl, rfl⟩
  decide

/-- Claim C3, amended: when every AgentResult has success false,
synthesize_results still makes exactly one external reasoning call; the
context part of its prompt consists solely of per-agent "Error occurred"
notes (no agent answer text), and the call's reply is what is returned —
there is no skip and no fixed failure message. -/
theorem synthesize_all_failed_still_calls (task : String)
    (results : List (String × AgentResult))
    (synth : String → Except String String)
    (h : ∀ p ∈ results, p.2.success = false) :
    (synthesize_results task results synth).1 = 1 ∧
    (synthesize_results task results synth).2
        = synth (synthPrompt task (errorOnlyContext results)) := by
  refine ⟨rfl, ?_⟩
  simp only [synthesize_results, buildContext, errorOnlyContext]
  rw [buildContext_eq_errorOnly results "" h]

/-- Witness for the amended C3 theorem at the concrete failed results. -/
theorem synthesize_all_failed_still_calls_witness :
    (∀ p ∈ allFailedResults, p.2.success = false) ∧
    (synthesize_results "q" allFailedResults
        (fun _ => Except.ok "llm text")).1 = 1 :=
  ⟨by decide,
   (synthesize_all_failed_still_calls "q" allFailedResults
      (fun _ => Except.ok "llm text") (by decide)).1⟩

/-- A parsed decomposition naming an agent outside the known set. -/
def unknownAgentDecomp : RawDecomp :=
  { needs_multiple_agents := some false,
    agents_needed := some ["marketing"],
    subtasks := some [("marketing", "analyze brand sentiment")] }

/-- Claim C4, counterexample: with classifier reply "CRO" the Router
selects cro for the query, yet the parse-failure fallback of
decompose_task names cfo — a hardcoded default, not the Router's choice;
and output that parses but names the unknown agent "marketing" is returned
unchanged rather than replaced by any fallback plan. -/
theorem decompose_fallback_counterexample :
    AgentRouter.route (.ok "CRO") = Except.ok Domain.cro ∧
    decompose_task "How did our campaigns perform?" .unparseable
        = Except.ok
            { needs_multiple_agents := some false,
              agents_needed := some ["cfo"],
              subtasks := some [("cfo", "How did our campaigns perform?")] } ∧
    (["cfo"] : List String) ≠ ["cro"] ∧
    decompose_task "analyze brand sentiment" (.parsed unknownAgentDecomp)
        = Except.ok unknownAgentDecomp ∧
    unknownAgentDecomp.agents_needed = some ["marketing"] ∧
    "marketing" ∉ agents_keys := by
  refine ⟨rfl, rfl, by decide, rfl, rfl, by decide⟩

/-- Claim C4, amended: decompose_task falls back only when the reasoning
output fails to parse, and then returns the single-agent plan with the
hardcoded agent cfo and the original query as its subtask, never consulting
the Router; output that parses is returned as-is even when it names an
unknown agent. -/
theorem decompose_fallback_hardcoded (task : String) :
    decompose_task task .unparseable
        = Except.ok
            { needs_multiple_agents := some false,
              agents_needed := some ["cfo"],
              subtasks := some [("cfo", task)] } ∧
    (∀ d : RawDecomp, decompose_task task (.parsed d) = Except.ok d) :=
  ⟨rfl, fun _ => rfl⟩

lemma execute_of_fields (task : String) (behavior : AgentBehavior)
    (synth : String → Except String String) (dec : DecompOutcome)
    (d : RawDecomp) (b : Bool) (l : List String)
    (st : List (String × String))
    (hd : decompose_task task dec = Except.ok d)
    (hb : d.needs_multiple_agents = some b)
    (hl : d.agents_needed = some l)
    (hst : d.subtasks = some st) :
    execute task dec behavior synth =
      match
        match b with
        | true =>
            ((synthesize_results task (execute_parallel behavior st)
                synth).2).map some
        | false =>
            single_agent_answer (execute_parallel behavior st) l
      with
      | .error e => .error e
      | .ok ans =>
          .ok { success := true, answer := ans, agents_used := l,
                agent_results := execute_parallel behavior st,
                needs_coordination := b } := by
  simp only [execute, hd, hb, hl, hst, getItem]

lemma single_agent_answer_isOk (results : List (String × AgentResult))
    (l : List String) (hl : l ≠ []) :
    ∃ ans, single_agent_answer results l = Except.ok ans := by
  cases l with
  | nil => exact absurd rfl hl
  | cons a rest =>
      cases hres : lookupResult results a with
      | none =>
          exact ⟨some "Error: Could not complete task",
            by simp [single_agent_answer, hres]⟩
      | some r =>
          cases hs : r.success with
          | false =>
              exact ⟨some "Error: Could not complete task",
                by simp [single_agent_answer, hres, hs]⟩
          | true =>
              exact ⟨r.answer, by simp [single_agent_answer, hres, hs]⟩

/-- An agent behaviour that always returns a successful result. -/
def okAgentBehavior : AgentBehavior :=
  fun _ _ => Except.ok { success := true, answer := some "fine" }

/-- A synthesis reasoning call that always returns. -/
def okSynth : String → Except String String :=
  fun _ => Except.ok "synthesized"

/-- A parsed decomposition dict missing every expected key. -/
def emptyDecomp : RawDecomp :=
  { needs_multiple_agents := none, agents_needed := none, subtasks := none }

/-- Claim C1, counterexample: the decomposition reasoning call sits outside
the try/except, so when it raises, execute raises too; and a reply that
parses but lacks the agents_needed key makes execute raise KeyError — both
with agents and synthesis perfectly well-behaved. -/
theorem execute_exception_escapes_counterexample :
    execute "q" (.raises "APITimeoutError") okAgentBehavior okSynth
        = Except.error "APITimeoutError" ∧
    execute "q" (.parsed emptyDecomp) okAgentBehavior okSynth
        = Except.error "KeyError: agents_needed" :=
  ⟨rfl, rfl⟩

/-- Decomposition-call behaviours under which execute cannot raise: the
call returns, and its output either fails to parse (triggering the
fallback) or parses to a dict carrying all three expected keys with a
nonempty agents_needed list. -/
def SafeDecompOutcome : DecompOutcome → Prop
  | .raises _ => False
  | .unparseable => True
  | .parsed d =>
      d.needs_multiple_agents.isSome ∧
      (∃ l, l ≠ [] ∧ d.agents_needed = some l) ∧
      d.subtasks.isSome

/-- Claim C1, amended: execute returns a well-formed OrchestrationResult
(and contains every agent exception) whenever the decomposition reasoning
call returns — with unparseable output covered by the fallback and parsed
output carrying the expected keys and a nonempty agents_needed — and the
synthesis reasoning call returns; outside these conditions (reasoning call
raising, or parsed output missing a key) the exception propagates to the
caller, see the counterexample. -/
theorem execute_returns_wellformed (task : String) (dec : DecompOutcome)
    (behavior : AgentBehavior) (synth : String → Except String String)
    (hdec : SafeDecompOutcome dec)
    (hsynth : ∀ p, ∃ s, synth p = Except.ok s) :
    ∃ res, execute task dec behavior synth = Except.ok res ∧
      res.success = true := by
  cases dec with
  | raises msg => exact hdec.elim
  | unparseable =>
      obtain ⟨ans, hans⟩ := single_agent_answer_isOk
        (execute_parallel behavior [("cfo", task)]) ["cfo"] (by simp)
      have hex := execute_of_fields task behavior synth .unparseable
        { needs_multiple_agents := some false,
          agents_needed := some ["cfo"],
          subtasks := some [("cfo", task)] }
        false ["cfo"] [("cfo", task)] rfl rfl rfl rfl
      rw [hex]
      simp only [hans]
      exact ⟨_, rfl, rfl⟩
  | parsed d =>
      obtain ⟨hb, ⟨l, hlne, hl⟩, hst⟩ := hdec
      obtain ⟨b, hb2⟩ := Option.isSome_iff_exists.mp hb
      obtain ⟨st, hst2⟩ := Option.isSome_iff_exists.mp hst
      have hex := execute_of_fields task behavior synth (.parsed d) d b l st
        rfl hb2 hl hst2
      rw [hex]
      cases b with
      | true =>
          obtain ⟨s, hs⟩ := hsynth
            (synthPrompt task (buildContext (execute_parallel behavior st)))
          simp only [synthesize_results, hs, Except.map]
          exact ⟨_, rfl, rfl⟩
      | false =>
          obtain ⟨ans, hans⟩ := single_agent_answer_isOk
            (execute_parallel behavior st) l hlne
          simp only [hans]
          exact ⟨_, rfl, rfl⟩

/-- Witness for the amended C1 theorem: an unparseable decomposition reply
with benign agents and synthesis. -/
theorem execute_returns_wellformed_witness :
    SafeDecompOutcome .unparseable ∧
    (∀ p, ∃ s, okSynth p = Except.ok s) ∧
    (∃ res, execute "q" .unparseable okAgentBehavior okSynth
        = Except.ok res ∧ res.success = true) :=
  ⟨trivial, fun _ => ⟨"synthesized", rfl⟩,
   execute_returns_wellformed "q" .unparseable okAgentBehavior okSynth
     trivial (fun _ => ⟨"synthesized", rfl⟩)⟩

/-- Claim C5: when the decomposition needs exactly one agent, execute's
answer is that agent's answer value verbatim when the agent's (wrapped)
result has success true, and the fixed failure string
"Error: Could not complete task" when it does not; agents_used then has
length 1. -/
theorem execute_single_agent (task : String) (behavior : AgentBehavior)
    (synth : String → Except String String) (d : RawDecomp)
    (a sub : String) (st : List (String × String))
    (hb : d.needs_multiple_agents = some false)
    (hl : d.agents_needed = some [a])
    (hst : d.subtasks = some st)
    (hnd : (st.map Prod.fst).Nodup)
    (hmem : (a, sub) ∈ st)
    (hk : a ∈ agents_keys) :
    ∃ res, execute task (.parsed d) behavior synth = Except.ok res ∧
      res.agents_used = [a] ∧
      res.agents_used.length = 1 ∧
      ((wrapResult (behavior a sub)).success = true →
        res.answer = (wrapResult (behavior a sub)).answer) ∧
      ((wrapResult (behavior a sub)).success = false →
        res.answer = some "Error: Could not complete task") := by
  have hlook := execute_parallel_lookup behavior st hnd a sub hmem hk
  have hsaa : single_agent_answer (execute_parallel behavior st) [a]
      = Except.ok
          (if (wrapResult (behavior a sub)).success
           then (wrapResult (behavior a sub)).answer
           else some "Error: Could not complete task") := by
    cases hw : (wrapResult (behavior a sub)).success with
    | true => simp [single_agent_answer, hlook, hw]
    | false => simp [single_agent_answer, hlook, hw]
  have hex := execute_of_fields task behavior synth (.parsed d) d false [a]
    st rfl hb hl hst
  rw [hex]
  simp only [hsaa]
  refine ⟨{ success := true,
            answer := if (wrapResult (behavior a sub)).success
                      then (wrapResult (behavior a sub)).answer
                      else some "Error: Could not complete task",
            agents_used := [a],
            agent_results := execute_parallel behavior st,
            needs_coordination := false }, rfl, rfl, rfl, ?_, ?_⟩
  · intro hw
    simp [hw]
  · intro hw
    simp [hw]

/-- A parsed decomposition needing exactly the cfo agent. -/
def singleAgentDecomp : RawDecomp :=
  { needs_multiple_agents := some false,
    agents_needed := some ["cfo"],
    subtasks := some [("cfo", "What was our Q4 2024 revenue?")] }

/-- An agent behaviour returning one successful answer. -/
def revenueBehavior : AgentBehavior :=
  fun _ _ => Except.ok { success := true, answer := some "Revenue was 15M" }

/-- Witness for C5 at a concrete single-agent decomposition. -/
theorem execute_single_agent_witness :
    singleAgentDecomp.needs_multiple_agents = some false ∧
    singleAgentDecomp.agents_needed = some ["cfo"] ∧
    (∃ res, execute "What was our Q4 2024 revenue?" (.parsed singleAgentDecomp)
        revenueBehavior okSynth = Except.ok res ∧
      res.agents_used = ["cfo"] ∧
      res.agents_used.length = 1 ∧
      ((wrapResult (revenueBehavior "cfo" "What was our Q4 2024 revenue?")).success
          = true →
        res.answer
          = (wrapResult
              (revenueBehavior "cfo" "What was our Q4 2024 revenue?")).answer) ∧
      ((wrapResult (revenueBehavior "cfo" "What was our Q4 2024 revenue?")).success
          = false →
        res.answer = some "Error: Could not complete task")) :=
  ⟨rfl, rfl,
   execute_single_agent "What was our Q4 2024 revenue?" revenueBehavior okSynth
     singleAgentDecomp "cfo" "What was our Q4 2024 revenue?"
     [("cfo", "What was our Q4 2024 revenue?")] rfl rfl rfl (by decide)
     (by decide) (by decide)⟩

end MultiAgentRag
